import Mathlib

/-!
Verification of the AetherGL procedural-terrain core against its
specification.  The development shallowly embeds the relevant C++ sources
(`NoiseGenerator.cpp`, `TerrainGenerator.cpp`, `LightingConfig.cpp`,
`PostProcessor.cpp`, `TerrainRenderer.cpp`): `float` arithmetic is modelled
over `ℝ`, C++ `int`/`unsigned` loop counters over `ℤ`/`ℕ`, `std::vector`
over `List`, and console output over `List String` return values.
-/

namespace AetherGL

noncomputable section

/-! ## NoiseGenerator (src/include/NoiseGenerator.cpp) -/

/-- Step function standing in for the output stream of the seeded
`std::mt19937` engine `m_rng`.  The claims under verification depend only on
the engine being a deterministic function of the seed; no claim depends on
the concrete values it produces. -/
def rngNext (s : ℕ) : ℕ := (s * 48271 + 1) % 2147483647

/-- Swap of the entries at positions `i` and `j` of a list (out-of-range
positions leave the list unchanged).  Building block for the shuffle. -/
def listSwap (l : List ℕ) (i j : ℕ) : List ℕ :=
  match l[i]?, l[j]? with
  | some a, some b => (l.set i b).set j a
  | _, _ => l

/-- Fisher-Yates pass modelling `std::shuffle(basePermutation, m_rng)` in
`NoiseGenerator::initializePermutationTable`: positions `n, n-1, …, 1` are
swapped with an engine-chosen position below them.  The verified claims use
only that the result is a deterministic rearrangement of the input values,
which holds for the library implementation as well. -/
def shuffleAux : ℕ → List ℕ → ℕ → List ℕ
  | 0, l, _ => l
  | i+1, l, s => shuffleAux i (listSwap l (i+1) (rngNext s % (i+2))) (rngNext s)

/-- `NoiseGenerator::initializePermutationTable`: the base table is
`0,…,255` shuffled by the seeded engine, then duplicated to 512 entries
(`m_permutation[i] = m_permutation[i+256] = basePermutation[i]`). -/
def permTable (seed : ℕ) : List ℕ :=
  let base := shuffleAux 255 (List.range 256) seed
  base ++ base

/-- State of a `NoiseGenerator` after construction: the 512-entry
permutation table.  The query methods are `const` in the source; they are
modelled as pure functions of this state. -/
structure NoiseGenerator where
  perm : List ℕ

/-- `NoiseGenerator::setSeed` followed by `initializePermutationTable`:
seed `0` is replaced by a clock-derived value (`timeSeed` models the value
of `steady_clock::now().time_since_epoch().count()`); any other seed is
used as given. -/
def mkNoiseGenerator (seed timeSeed : ℕ) : NoiseGenerator :=
  ⟨permTable (if seed = 0 then timeSeed else seed)⟩

/-- Read of `m_permutation[i]` (out-of-range reads, which claim C9 rules
out, default to 0). -/
def NoiseGenerator.p (g : NoiseGenerator) (i : ℕ) : ℕ := g.perm.getD i 0

/-- `NoiseGenerator::fade`: the quintic `6t^5 - 15t^4 + 10t^3`. -/
def fade (t : ℝ) : ℝ := t * t * t * (t * (t * 6 - 15) + 10)

/-- `NoiseGenerator::lerp`. -/
def lerp (a b t : ℝ) : ℝ := a + t * (b - a)

/-- Two-argument `NoiseGenerator::grad`: the low 2 bits of the hash select
one of the four gradients `(±1, ±1)`. -/
def grad2 (hash : ℕ) (x y : ℝ) : ℝ :=
  let h := hash % 4
  let u := if h < 2 then x else -x
  let v := if h % 2 = 1 then y else -y
  u + v

/-- Three-argument `NoiseGenerator::grad`: the low 4 bits select one of 12
gradient directions. -/
def grad3 (hash : ℕ) (x y z : ℝ) : ℝ :=
  let h := hash % 16
  let u := if h < 8 then x else y
  let v := if h < 4 then y else if h = 12 ∨ h = 14 then x else z
  (if h % 2 = 0 then u else -u) + (if h / 2 % 2 = 0 then v else -v)

/-- `NoiseGenerator::perlin2D`.  `static_cast<int>(std::floor(x)) & 255` is
`⌊x⌋ mod 256` (two's-complement `&` on the floor), and the fractional
offsets are `x - ⌊x⌋`. -/
def NoiseGenerator.perlin2D (g : NoiseGenerator) (x y : ℝ) : ℝ :=
  let X := ((⌊x⌋ : ℤ) % 256).toNat
  let Y := ((⌊y⌋ : ℤ) % 256).toNat
  let xf := x - ⌊x⌋
  let yf := y - ⌊y⌋
  let u := fade xf
  let v := fade yf
  let A := g.p X + Y
  let AA := g.p A
  let AB := g.p (A + 1)
  let B := g.p (X + 1) + Y
  let BA := g.p B
  let BB := g.p (B + 1)
  lerp (lerp (grad2 (g.p AA) xf yf) (grad2 (g.p BA) (xf - 1) yf) u)
       (lerp (grad2 (g.p AB) xf (yf - 1)) (grad2 (g.p BB) (xf - 1) (yf - 1)) u) v

/-- `NoiseGenerator::perlin3D`. -/
def NoiseGenerator.perlin3D (g : NoiseGenerator) (x y z : ℝ) : ℝ :=
  let X := ((⌊x⌋ : ℤ) % 256).toNat
  let Y := ((⌊y⌋ : ℤ) % 256).toNat
  let Z := ((⌊z⌋ : ℤ) % 256).toNat
  let xf := x - ⌊x⌋
  let yf := y - ⌊y⌋
  let zf := z - ⌊z⌋
  let u := fade xf
  let v := fade yf
  let w := fade zf
  let A := g.p X + Y
  let AA := g.p A + Z
  let AB := g.p (A + 1) + Z
  let B := g.p (X + 1) + Y
  let BA := g.p B + Z
  let BB := g.p (B + 1) + Z
  lerp
    (lerp (lerp (grad3 (g.p AA) xf yf zf) (grad3 (g.p BA) (xf - 1) yf zf) u)
          (lerp (grad3 (g.p AB) xf (yf - 1) zf) (grad3 (g.p BB) (xf - 1) (yf - 1) zf) u) v)
    (lerp (lerp (grad3 (g.p (AA + 1)) xf yf (zf - 1)) (grad3 (g.p (BA + 1)) (xf - 1) yf (zf - 1)) u)
          (lerp (grad3 (g.p (AB + 1)) xf (yf - 1) (zf - 1)) (grad3 (g.p (BB + 1)) (xf - 1) (yf - 1) (zf - 1)) u) v)
    w

/-- Accumulator of the `NoiseGenerator::fbm2D` loop after `n` iterations:
`(value, amplitude, frequency, maxValue)`, starting from `(0, 1, 1, 0)`. -/
def fbmAccum (g : NoiseGenerator) (x y persistence lacunarity : ℝ) : ℕ → ℝ × ℝ × ℝ × ℝ
  | 0 => (0, 1, 1, 0)
  | n + 1 =>
    let acc := fbmAccum g x y persistence lacunarity n
    (acc.1 + g.perlin2D (x * acc.2.2.1) (y * acc.2.2.1) * acc.2.1,
     acc.2.1 * persistence,
     acc.2.2.1 * lacunarity,
     acc.2.2.2 + acc.2.1)

/-- Accumulated noise sum of `fbm2D` (the `value` variable) after the loop;
`octaves` is a C++ `int`, and a non-positive count runs the loop zero
times. -/
def fbmValue (g : NoiseGenerator) (x y : ℝ) (octaves : ℤ) (persistence lacunarity : ℝ) : ℝ :=
  (fbmAccum g x y persistence lacunarity octaves.toNat).1

/-- Accumulated total amplitude of `fbm2D` (the `maxValue` variable, the
final divisor) after the loop. -/
def fbmMaxValue (g : NoiseGenerator) (x y : ℝ) (octaves : ℤ) (persistence lacunarity : ℝ) : ℝ :=
  (fbmAccum g x y persistence lacunarity octaves.toNat).2.2.2

/-- `NoiseGenerator::fbm2D`: the normalized sum `value / maxValue`.  (For
`octaves ≤ 0` the C++ code computes the float division `0.0f / 0.0f`,
i.e. NaN; real division by zero is the value 0 here, and claim C10 is
settled on the exposed numerator/divisor instead.) -/
def NoiseGenerator.fbm2D (g : NoiseGenerator) (x y : ℝ) (octaves : ℤ)
    (persistence lacunarity : ℝ) : ℝ :=
  fbmValue g x y octaves persistence lacunarity / fbmMaxValue g x y octaves persistence lacunarity

/-- `NoiseGenerator::generateTerrainHeight`: base fBm (6 octaves), squared
inverted-ridge layer (4 octaves at half scale), fine detail (3 octaves at
4× scale, weighted 0.1), combined `0.7/0.2/+detail` and remapped from
`[-1,1]` to `[0, heightScale]`. -/
def NoiseGenerator.generateTerrainHeight (g : NoiseGenerator) (x z scale heightScale : ℝ) : ℝ :=
  let scaledX := x * scale
  let scaledZ := z * scale
  let height := g.fbm2D scaledX scaledZ 6 0.5 2.0
  let ridges0 := |g.fbm2D (scaledX * 0.5) (scaledZ * 0.5) 4 0.6 2.1|
  let ridges1 := 1 - ridges0
  let ridges := ridges1 * ridges1
  let detail := g.fbm2D (scaledX * 4.0) (scaledZ * 4.0) 3 0.3 2.0 * 0.1
  let combined := height * 0.7 + ridges * 0.2 + detail
  (combined * 0.5 + 0.5) * heightScale

/-- Permutation-table read sites of `perlin2D`, in source order: the masked
cell corners `X`, `X+1`, the corner hashes `A`, `A+1`, `B`, `B+1`, and the
four gradient hashes fed to `grad`. -/
def perlin2DIndices (g : NoiseGenerator) (x y : ℝ) : List ℕ :=
  let X := ((⌊x⌋ : ℤ) % 256).toNat
  let Y := ((⌊y⌋ : ℤ) % 256).toNat
  let A := g.p X + Y
  let B := g.p (X + 1) + Y
  [X, X + 1, A, A + 1, B, B + 1, g.p A, g.p B, g.p (A + 1), g.p (B + 1)]

/-- Permutation-table read sites of `perlin3D`, in source order. -/
def perlin3DIndices (g : NoiseGenerator) (x y z : ℝ) : List ℕ :=
  let X := ((⌊x⌋ : ℤ) % 256).toNat
  let Y := ((⌊y⌋ : ℤ) % 256).toNat
  let Z := ((⌊z⌋ : ℤ) % 256).toNat
  let A := g.p X + Y
  let AA := g.p A + Z
  let AB := g.p (A + 1) + Z
  let B := g.p (X + 1) + Y
  let BA := g.p B + Z
  let BB := g.p (B + 1) + Z
  [X, X + 1, A, A + 1, B, B + 1,
   AA, BA, AB, BB, AA + 1, BA + 1, AB + 1, BB + 1]

end

/-! ## LightingConfig (src/include/LightingConfig.h, LightingConfig.cpp) -/

noncomputable section

/-- Model of `glm::vec3` as a real triple. -/
abbrev Vec3 : Type := ℝ × ℝ × ℝ

/-- Componentwise vector sum. -/
def vadd (a b : Vec3) : Vec3 := (a.1 + b.1, a.2.1 + b.2.1, a.2.2 + b.2.2)

/-- Componentwise vector difference. -/
def vsub (a b : Vec3) : Vec3 := (a.1 - b.1, a.2.1 - b.2.1, a.2.2 - b.2.2)

/-- Scalar multiple of a vector. -/
def vsmul (s : ℝ) (a : Vec3) : Vec3 := (s * a.1, s * a.2.1, s * a.2.2)

/-- `glm::normalize`: division by the Euclidean length. -/
def vnormalize (v : Vec3) : Vec3 :=
  let n := Real.sqrt (v.1 ^ 2 + v.2.1 ^ 2 + v.2.2 ^ 2)
  (v.1 / n, v.2.1 / n, v.2.2 / n)

/-- `std::clamp` / `glm::clamp`. -/
def clampR (v lo hi : ℝ) : ℝ := min (max v lo) hi

/-- `DirectionalLight` of LightingConfig.h. -/
structure DirectionalLight where
  direction : Vec3
  color : Vec3
  intensity : ℝ
  enabled : Bool

/-- `PointLight` of LightingConfig.h. -/
structure PointLight where
  position : Vec3
  color : Vec3
  intensity : ℝ
  range : ℝ

/-- `TerrainMaterialConfig` of LightingConfig.h. -/
structure TerrainMaterialConfig where
  grassHeight : ℝ
  rockHeight : ℝ
  snowHeight : ℝ

/-- `POMConfig` of LightingConfig.h. -/
structure POMConfig where
  enabled : Bool
  scale : ℝ
  minSamples : ℤ
  maxSamples : ℤ
  sharpen : ℝ

/-- `IBLConfig` of LightingConfig.h. -/
structure IBLConfig where
  enabled : Bool
  intensity : ℝ

/-- `AtmosphericConfig` of LightingConfig.h. -/
structure AtmosphericConfig where
  enableAtmosphericFog : Bool
  fogDensity : ℝ
  fogHeightFalloff : ℝ
  fogColor : Vec3
  atmosphericPerspective : ℝ
  atmosphereRadius : ℝ
  planetRadius : ℝ
  rayleighCoeff : ℝ
  mieCoeff : ℝ
  mieG : ℝ
  sunDiskSize : ℝ
  exposure : ℝ

/-- `TimeOfDayConfig` of LightingConfig.h. -/
structure TimeOfDayConfig where
  timeOfDay : ℝ
  animateTimeOfDay : Bool
  daySpeed : ℝ

/-- The `PI` constant of `TimeOfDayConfig`. -/
def timePI : ℝ := 3.14159265359

/-- `TimeOfDayConfig::getSunDirection`. -/
def TimeOfDayConfig.getSunDirection (c : TimeOfDayConfig) : Vec3 :=
  let angle := (c.timeOfDay - 0.5) * timePI * 2
  vnormalize (Real.sin angle * 0.3, -Real.cos angle, -0.2)

/-- `TimeOfDayConfig::getSunColor`: the banded day/night colors. -/
def TimeOfDayConfig.getSunColor (c : TimeOfDayConfig) : Vec3 :=
  if c.timeOfDay < 0.2 ∨ 0.8 < c.timeOfDay then (0.1, 0.1, 0.3)
  else if c.timeOfDay < 0.3 ∨ 0.7 < c.timeOfDay then (1, 0.6, 0.3)
  else (1, 0.95, 0.8)

/-- `TimeOfDayConfig::getSunIntensity`. -/
def TimeOfDayConfig.getSunIntensity (c : TimeOfDayConfig) : ℝ :=
  if c.timeOfDay < 0.2 ∨ 0.8 < c.timeOfDay then 0.1
  else if c.timeOfDay < 0.3 ∨ 0.7 < c.timeOfDay then 2
  else 4

/-- `LightingConfig` of LightingConfig.h (the mutable aggregate). -/
structure LightingConfig where
  directionalLight : DirectionalLight
  pointLights : List PointLight
  terrain : TerrainMaterialConfig
  pom : POMConfig
  ibl : IBLConfig
  atmosphere : AtmosphericConfig
  timeOfDay : TimeOfDayConfig

/-- Console warning printed by `addPointLight` when the cap is hit. -/
def maxPointLightsMsg : String := "Warning: Maximum number of point lights (8) reached"

/-- `LightingConfig::addPointLight`: append while fewer than 8 lights,
otherwise leave the state untouched and print a warning (returned here as
the console-output component). -/
def LightingConfig.addPointLight (cfg : LightingConfig) (light : PointLight) :
    LightingConfig × List String :=
  if cfg.pointLights.length < 8 then
    ({ cfg with pointLights := cfg.pointLights ++ [light] }, [])
  else
    (cfg, [maxPointLightsMsg])

/-- `LightingConfig::clearPointLights`. -/
def LightingConfig.clearPointLights (cfg : LightingConfig) : LightingConfig :=
  { cfg with pointLights := [] }

/-- `LightingConfig::setupDefaultLights`: clear, set the daytime sun, add
two accent lights, set terrain/POM/IBL defaults. -/
def LightingConfig.setupDefaultLights (cfg : LightingConfig) : LightingConfig :=
  let c0 := { cfg with pointLights := ([] : List PointLight) }
  let c1 := { c0 with directionalLight :=
    ⟨(0.3, -0.7, -0.2), (1, 0.95, 0.8), 1.2, true⟩ }
  let c2 := (c1.addPointLight ⟨(10, 3, 10), (1, 0.6, 0.2), 8, 25⟩).1
  let c3 := (c2.addPointLight ⟨(-15, 5, -10), (0.2, 0.4, 1), 6, 20⟩).1
  { c3 with
    terrain := ⟨2, 8, 12⟩,
    pom := { c3.pom with enabled := true, scale := 0.08, minSamples := 64, maxSamples := 128 },
    ibl := ⟨false, 0.3⟩ }

/-- `LightingConfig::setupSunsetLighting`: clear, set the sunset sun, add
two rim lights. -/
def LightingConfig.setupSunsetLighting (cfg : LightingConfig) : LightingConfig :=
  let c0 := { cfg with pointLights := ([] : List PointLight) }
  let c1 := { c0 with directionalLight :=
    ⟨(0.8, -0.3, 0.2), (1, 0.4, 0.1), 2.5, true⟩ }
  let c2 := (c1.addPointLight ⟨(20, 2, 15), (1, 0.3, 0), 25, 30⟩).1
  (c2.addPointLight ⟨(-10, 1, -5), (0.4, 0.2, 0.6), 12, 20⟩).1

/-- `LightingConfig::setupNightLighting`: disable the directional light,
clear, add five colored point lights. -/
def LightingConfig.setupNightLighting (cfg : LightingConfig) : LightingConfig :=
  let c0 := { cfg with directionalLight := { cfg.directionalLight with enabled := false } }
  let c1 := { c0 with pointLights := ([] : List PointLight) }
  let c2 := (c1.addPointLight ⟨(8, 4, 8), (1, 0.7, 0.3), 30, 15⟩).1
  let c3 := (c2.addPointLight ⟨(-12, 3, 5), (1, 0.8, 0.4), 25, 18⟩).1
  let c4 := (c3.addPointLight ⟨(0, 8, -15), (0.3, 0.8, 1), 20, 25⟩).1
  let c5 := (c4.addPointLight ⟨(15, 2, -8), (0.2, 1, 0.3), 18, 20⟩).1
  (c5.addPointLight ⟨(-5, 6, 12), (0.8, 0.2, 1), 22, 16⟩).1

/-- Night fog color of `updateTimeOfDay`. -/
def nightFog : Vec3 := (0.4, 0.4, 0.6)

/-- Sunset fog color of `updateTimeOfDay`. -/
def sunsetFog : Vec3 := (0.8, 0.6, 0.4)

/-- Day fog color of `updateTimeOfDay`. -/
def dayFog : Vec3 := (0.7, 0.8, 0.9)

/-- Fog branch of `LightingConfig::updateTimeOfDay` as a function of the
post-wrap time of day: outside the day band `[0.3, 0.7]` the fog is
`nightFog + mixFactor * (sunsetFog - nightFog)` with
`mixFactor = clamp(|t - 0.5| * 4 - 1, 0, 1)`; inside it the fog is the
fixed day color. -/
def fogColorOf (t : ℝ) : Vec3 :=
  if t < 0.3 ∨ 0.7 < t then
    vadd nightFog (vsmul (clampR (|t - 0.5| * 4 - 1) 0 1) (vsub sunsetFog nightFog))
  else dayFog

/-- Fog color as the specification sentence describes it: a blend of the
night-fog and sunset-fog colors under a triangular ramp in the time of day
peaking at 0 and 1 (defined from the spec wording, for comparison with the
source-derived `fogColorOf`). -/
def specFogBlend (t : ℝ) : Vec3 :=
  vadd nightFog (vsmul (clampR (|t - 0.5| * 4 - 1) 0 1) (vsub sunsetFog nightFog))

/-- `LightingConfig::updateTimeOfDay`: no-op unless animation is enabled;
otherwise advance the time by `deltaTime * daySpeed`, subtract 1 once when
the result reaches 1, and recompute the directional light and the fog
color from the new time. -/
def LightingConfig.updateTimeOfDay (cfg : LightingConfig) (deltaTime : ℝ) : LightingConfig :=
  if cfg.timeOfDay.animateTimeOfDay then
    let t0 := cfg.timeOfDay.timeOfDay + deltaTime * cfg.timeOfDay.daySpeed
    let t1 := if 1 ≤ t0 then t0 - 1 else t0
    let tod : TimeOfDayConfig := { cfg.timeOfDay with timeOfDay := t1 }
    { cfg with
      timeOfDay := tod,
      directionalLight := { cfg.directionalLight with
        direction := tod.getSunDirection,
        color := tod.getSunColor,
        intensity := tod.getSunIntensity },
      atmosphere := { cfg.atmosphere with fogColor := fogColorOf t1 } }
  else cfg

/-- Field-initializer state of a fresh `LightingConfig` aggregate
(LightingConfig.h default member values, before the constructor runs
`setupDefaultLights`). -/
def fieldDefaultsConfig : LightingConfig where
  directionalLight := ⟨(0.3, -0.7, -0.2), (1, 0.95, 0.8), 3, true⟩
  pointLights := []
  terrain := ⟨2, 8, 12⟩
  pom := ⟨true, 0.08, 16, 64, 1⟩
  ibl := ⟨false, 0.3⟩
  atmosphere := ⟨true, 0.02, 0.1, (0.7, 0.8, 0.9), 0.5, 1000, 900, 1, 1, 0.8, 0.01, 1⟩
  timeOfDay := ⟨0.3, false, 0.1⟩

/-- Lighting-state operations whose sequences claim C7 quantifies over. -/
inductive LightingOp where
  | add : PointLight → LightingOp
  | clear : LightingOp
  | presetDefault : LightingOp
  | presetSunset : LightingOp
  | presetNight : LightingOp

/-- Dispatch of one lighting-state operation (console output of `add` is
dropped; it does not affect the state). -/
def applyLightingOp (cfg : LightingConfig) : LightingOp → LightingConfig
  | .add l => (cfg.addPointLight l).1
  | .clear => cfg.clearPointLights
  | .presetDefault => cfg.setupDefaultLights
  | .presetSunset => cfg.setupSunsetLighting
  | .presetNight => cfg.setupNightLighting

/-- Sequential application of lighting-state operations. -/
def applyLightingOps (cfg : LightingConfig) (ops : List LightingOp) : LightingConfig :=
  ops.foldl applyLightingOp cfg

/-- Animated state at time 0 with day speed 1, exhibiting the missing full
wrap of claim C5. -/
def wrapDemoConfig : LightingConfig :=
  { fieldDefaultsConfig with timeOfDay := ⟨0, true, 1⟩ }

/-- Animated state from the spec's wraparound example: time 0.98, day
speed 0.1. -/
def specExampleConfig : LightingConfig :=
  { fieldDefaultsConfig with timeOfDay := ⟨0.98, true, 0.1⟩ }

/-- Animated state at time 0.4 with day speed 1: one update of 0.1 lands
exactly on noon, inside the day band of the fog branch. -/
def fogDemoConfig : LightingConfig :=
  { fieldDefaultsConfig with timeOfDay := ⟨0.4, true, 1⟩ }

/-- A point light with the header's default member values. -/
def defaultPointLight : PointLight := ⟨(0, 0, 0), (1, 1, 1), 10, 20⟩

/-- Lighting state already holding 8 point lights. -/
def fullLightsConfig : LightingConfig :=
  { fieldDefaultsConfig with pointLights := List.replicate 8 defaultPointLight }

end

/-! ## TerrainGenerator (src/include/TerrainGenerator.cpp) -/

noncomputable section

/-- `Vertex` of Mesh.h: position, texture coordinates and normal. -/
structure Vertex where
  position : Vec3
  texCoords : ℝ × ℝ
  normal : Vec3

/-- `TerrainGenerator::generateTexCoords`: world position mapped into
`[0,1]²` by the terrain extent and clamped. -/
def generateTexCoords (worldPos : Vec3) (terrainSize : ℝ) : ℝ × ℝ :=
  (clampR ((worldPos.1 + terrainSize * 0.5) / terrainSize) 0 1,
   clampR ((worldPos.2.2 + terrainSize * 0.5) / terrainSize) 0 1)

/-- Concatenation of the blocks `f x0, f (x0+1), …` over `n` iterations:
the generic shape of the nested generation loops. -/
def chunkAux {α : Type} (f : ℕ → List α) (x0 : ℕ) : ℕ → List α
  | 0 => []
  | n + 1 => f x0 ++ chunkAux f (x0 + 1) n

/-- Vertex produced for grid coordinates `(x, z)` (body of the vertex
loop): centered world position, noise-displaced height, clamped UVs, and
the provisional up normal. -/
def gridVertex (g : NoiseGenerator) (width depth : ℝ) (widthSegments depthSegments : ℕ)
    (center : Vec3) (heightScale noiseScale : ℝ) (z x : ℕ) : Vertex :=
  let stepX := width / (widthSegments : ℝ)
  let stepZ := depth / (depthSegments : ℝ)
  let px := center.1 - width * 0.5 + (x : ℝ) * stepX
  let pz := center.2.2 - depth * 0.5 + (z : ℝ) * stepZ
  let py := center.2.1 + g.generateTerrainHeight px pz noiseScale heightScale
  { position := (px, py, pz),
    texCoords := generateTexCoords (px, py, pz) (max width depth),
    normal := (0, 1, 0) }

/-- Modulus of the 32-bit `unsigned int` arithmetic of
`generateDisplacedPlaneMesh` (its segment counts, derived totals and
pushed indices all wrap at `2^32`). -/
def u32 : ℕ := 4294967296

/-- The six indices pushed for quad cell `(x, z)`: triangles
`(topLeft, bottomLeft, topRight)` and `(topRight, bottomLeft, bottomRight)`
with `topLeft = z * vertexCountX + x`, every value computed in wrapping
32-bit `unsigned int` arithmetic. -/
def cellIndices (vertexCountX z x : ℕ) : List ℕ :=
  [(z * vertexCountX + x) % u32, ((z + 1) * vertexCountX + x) % u32,
   (z * vertexCountX + x + 1) % u32,
   (z * vertexCountX + x + 1) % u32, ((z + 1) * vertexCountX + x) % u32,
   ((z + 1) * vertexCountX + x + 1) % u32]

/-- Vertex buffer written by the `z`-outer/`x`-inner loops (rows of
`widthSegments + 1` vertices for `z = 0, …, depthSegments`). -/
def gridVertices (g : NoiseGenerator) (width depth : ℝ) (widthSegments depthSegments : ℕ)
    (center : Vec3) (heightScale noiseScale : ℝ) : List Vertex :=
  chunkAux (fun z =>
    chunkAux (fun x =>
      [gridVertex g width depth widthSegments depthSegments center heightScale noiseScale z x])
      0 (widthSegments + 1))
    0 (depthSegments + 1)

/-- Index buffer written by the cell loops (`z < depthSegments`,
`x < widthSegments`, six indices per cell, `vertexCountX` being the
wrapped 32-bit `widthSegments + 1`). -/
def gridIndices (widthSegments depthSegments : ℕ) : List ℕ :=
  chunkAux (fun z =>
    chunkAux (fun x => cellIndices ((widthSegments + 1) % u32) z x) 0 widthSegments)
    0 depthSegments

/-- `TerrainGenerator::generateDisplacedPlaneMesh`: parameter validation,
vertex and index generation, and the final count checks (either mismatch
is a reported failure).  The segment counts are `unsigned int`, so
`vertexCountX/vertexCountZ/totalVertices/totalTriangles/totalIndices`
(source lines 80-84) wrap at `2^32`, while `vertices.size()` and
`indices.size()` are the true 64-bit counts — for grids whose analytic
counts exceed `2^32` the checks compare a wrapped total against the true
count and the build fails.  (The generation loops are modelled as running
`depthSegments+1` and `widthSegments+1` times; the C++ loop fails to
terminate only in the degenerate case of a segment count equal to
`2^32 - 1`, which no terminating run reaches.) -/
def generateDisplacedPlaneMesh (width depth : ℝ) (widthSegments depthSegments : ℕ)
    (center : Vec3) (heightScale noiseScale : ℝ) (seed timeSeed : ℕ) :
    Option (List Vertex × List ℕ) :=
  if widthSegments < 1 ∨ depthSegments < 1 then none
  else if width ≤ 0 ∨ depth ≤ 0 then none
  else if (gridVertices (mkNoiseGenerator seed timeSeed) width depth widthSegments depthSegments
      center heightScale noiseScale).length
      ≠ ((widthSegments + 1) % u32) * ((depthSegments + 1) % u32) % u32 then none
  else if (gridIndices widthSegments depthSegments).length
      ≠ widthSegments * depthSegments * 2 % u32 * 3 % u32 then none
  else some (gridVertices (mkNoiseGenerator seed timeSeed) width depth widthSegments depthSegments
      center heightScale noiseScale, gridIndices widthSegments depthSegments)

end

/-! ## PostProcessor bloom (src/include/PostProcessor.cpp) -/

/-- One blur iteration of `PostProcessor::applyBloom`: the direction flag,
the ping-pong target written (`m_pingPongFBO[horizontal ? 1 : 0]`) and the
ping-pong texture read (`m_pingPongTexture[horizontal ? 0 : 1]`). -/
structure BlurPass where
  horizontal : Bool
  writeTarget : ℕ
  readSource : ℕ
  deriving DecidableEq

/-- Blur loop of `applyBloom`: `horizontal` starts `true` and toggles after
every pass. -/
def blurLoop : ℕ → Bool → List BlurPass
  | 0, _ => []
  | n + 1, h =>
    { horizontal := h, writeTarget := if h then 1 else 0, readSource := if h then 0 else 1 }
      :: blurLoop n (!h)

/-- Blur passes executed by `applyBloom` for a configured
`bloomBlurPasses` (a C++ `int`; non-positive counts run no passes). -/
def applyBloomPasses (bloomBlurPasses : ℤ) : List BlurPass :=
  blurLoop bloomBlurPasses.toNat true

/-- Ping-pong texture index bound to texture unit 2 by the final composite
in `endFrame` (`m_pingPongTexture[0]`, commented as the final blur
result). -/
def compositeBloomSource : ℕ := 0

/-! ## TerrainRenderer render loop (src/include/TerrainRenderer.cpp) -/

/-- Rendering path taken by one frame of `TerrainRenderer::render`. -/
inductive RenderPath where
  | postProcessed
  | direct
  deriving DecidableEq

/-- Post-processing-relevant renderer state: whether a `PostProcessor` was
constructed (`m_postProcessor != nullptr`) and whether the post-processed
path is enabled (`m_postProcessingEnabled`). -/
structure RendererState where
  hasPostProcessor : Bool
  postProcessingEnabled : Bool

/-- Diagnostic lines printed by the `catch` handler of `render`. -/
def postErrorLog : List String :=
  ["Post-processing error", "Disabling post-processing and using direct rendering"]

/-- One `TerrainRenderer::render` frame, restricted to the rendering-path
choice: `postRaises` says whether an exception escapes the
`beginFrame/renderScene/endFrame` sequence this frame (consulted only when
that path is taken).  On a throw the handler logs twice, clears
`m_postProcessingEnabled` and renders directly; with the path disabled or
no post-processor the frame renders directly with no output. -/
def renderFrame (s : RendererState) (postRaises : Bool) :
    RendererState × RenderPath × List String :=
  if s.hasPostProcessor = true ∧ s.postProcessingEnabled = true then
    if postRaises then
      ({ s with postProcessingEnabled := false }, RenderPath.direct, postErrorLog)
    else (s, RenderPath.postProcessed, [])
  else (s, RenderPath.direct, [])

/-- Sequence of frames: final state and the per-frame
(path, console output) observations. -/
def runFrames (s : RendererState) : List Bool → RendererState × List (RenderPath × List String)
  | [] => (s, [])
  | e :: rest =>
    let step := renderFrame s e
    let next := runFrames step.1 rest
    (next.1, step.2 :: next.2)

/-! ## Supporting lemmas -/

lemma listSwap_length (l : List ℕ) (i j : ℕ) : (listSwap l i j).length = l.length := by
  unfold listSwap
  rcases h1 : l[i]? with _ | a <;> rcases h2 : l[j]? with _ | b <;> simp

lemma listSwap_bound {l : List ℕ} {c : ℕ} (h : ∀ v ∈ l, v ≤ c) (i j : ℕ) :
    ∀ v ∈ listSwap l i j, v ≤ c := by
  unfold listSwap
  rcases h1 : l[i]? with _ | a <;> rcases h2 : l[j]? with _ | b
  · exact h
  · exact h
  · exact h
  · intro v hv
    rcases List.mem_or_eq_of_mem_set hv with hv' | rfl
    · rcases List.mem_or_eq_of_mem_set hv' with hv'' | rfl
      · exact h v hv''
      · exact h v (List.getElem?_mem h2)
    · exact h v (List.getElem?_mem h1)

lemma shuffleAux_length (n : ℕ) : ∀ (l : List ℕ) (s : ℕ),
    (shuffleAux n l s).length = l.length := by
  induction n with
  | zero => intro l s; rfl
  | succ m ih => intro l s; rw [shuffleAux, ih, listSwap_length]

lemma shuffleAux_bound (n : ℕ) : ∀ (l : List ℕ) (s c : ℕ), (∀ v ∈ l, v ≤ c) →
    ∀ v ∈ shuffleAux n l s, v ≤ c := by
  induction n with
  | zero => intro l s c h; exact h
  | succ m ih => intro l s c h; exact ih _ _ _ (listSwap_bound h _ _)

lemma permTable_length (seed : ℕ) : (permTable seed).length = 512 := by
  unfold permTable
  rw [List.length_append, shuffleAux_length, List.length_range]

lemma permTable_bound (seed : ℕ) : ∀ v ∈ permTable seed, v ≤ 255 := by
  unfold permTable
  intro v hv
  have hbase : ∀ w ∈ shuffleAux 255 (List.range 256) seed, w ≤ 255 := by
    refine shuffleAux_bound 255 _ seed 255 ?_
    intro w hw
    exact Nat.lt_succ_iff.mp (List.mem_range.mp hw)
  rcases List.mem_append.mp hv with h | h
  · exact hbase v h
  · exact hbase v h

lemma p_le_255 {g : NoiseGenerator} (h : ∀ v ∈ g.perm, v ≤ 255) (i : ℕ) :
    g.p i ≤ 255 := by
  unfold NoiseGenerator.p
  rw [List.getD_eq_getElem?_getD]
  rcases hg : g.perm[i]? with _ | v
  · simp
  · simpa using h v (List.getElem?_mem hg)

lemma floorMask_le_255 (x : ℝ) : ((⌊x⌋ : ℤ) % 256).toNat ≤ 255 := by
  have h1 : (⌊x⌋ : ℤ) % 256 < 256 := Int.emod_lt_of_pos _ (by norm_num)
  omega

lemma fract_nonneg' (x : ℝ) : 0 ≤ x - ⌊x⌋ := by
  have := Int.floor_le x; linarith

lemma fract_lt_one' (x : ℝ) : x - ⌊x⌋ < 1 := by
  have := Int.lt_floor_add_one x; linarith

lemma quad_nonneg (t : ℝ) : 0 ≤ 6 * t ^ 2 - 15 * t + 10 := by
  nlinarith [sq_nonneg (4 * t - 5)]

lemma fade_nonneg {t : ℝ} (h0 : 0 ≤ t) : 0 ≤ fade t := by
  have h := mul_nonneg (pow_nonneg h0 3) (quad_nonneg t)
  have hf : fade t = t ^ 3 * (6 * t ^ 2 - 15 * t + 10) := by unfold fade; ring
  linarith [hf ▸ h]

lemma fade_le_one {t : ℝ} (h0 : 0 ≤ t) (h1 : t ≤ 1) : fade t ≤ 1 := by
  have hc : (0:ℝ) ≤ 6 * t ^ 2 + 3 * t + 1 := by nlinarith [sq_nonneg t]
  have hp : (0:ℝ) ≤ (1 - t) ^ 3 := pow_nonneg (by linarith) 3
  have h := mul_nonneg hp hc
  have hf : 1 - fade t = (1 - t) ^ 3 * (6 * t ^ 2 + 3 * t + 1) := by unfold fade; ring
  linarith [hf ▸ h]

lemma fade_corner_bound {t : ℝ} (h0 : 0 ≤ t) (h1 : t ≤ 1) :
    t + (1 - 2 * t) * fade t ≤ 1 / 2 := by
  have hq : (0:ℝ) ≤ 6 * t ^ 2 * (t - 1) ^ 2 + 2 * t * (1 - t) + 1 := by
    nlinarith [sq_nonneg (t * (t - 1)), mul_nonneg h0 (by linarith : (0:ℝ) ≤ 1 - t)]
  have key : 1 / 2 - (t + (1 - 2 * t) * fade t)
      = (2 * t - 1) ^ 2 * (6 * t ^ 2 * (t - 1) ^ 2 + 2 * t * (1 - t) + 1) / 2 := by
    unfold fade; ring
  nlinarith [mul_nonneg (sq_nonneg (2 * t - 1)) hq]

lemma grad2_abs_le (hash : ℕ) (x y : ℝ) : |grad2 hash x y| ≤ |x| + |y| := by
  unfold grad2
  have hu : |(if hash % 4 < 2 then x else -x)| = |x| := by split <;> simp
  have hv : |(if hash % 4 % 2 = 1 then y else -y)| = |y| := by split <;> simp
  calc |(if hash % 4 < 2 then x else -x) + (if hash % 4 % 2 = 1 then y else -y)|
      ≤ |(if hash % 4 < 2 then x else -x)| + |(if hash % 4 % 2 = 1 then y else -y)| :=
        abs_add _ _
    _ = |x| + |y| := by rw [hu, hv]

lemma abs_lerp_le {a b t ma mb : ℝ} (ht0 : 0 ≤ t) (ht1 : t ≤ 1)
    (ha : |a| ≤ ma) (hb : |b| ≤ mb) : |lerp a b t| ≤ (1 - t) * ma + t * mb := by
  have h1 : lerp a b t = (1 - t) * a + t * b := by unfold lerp; ring
  have h2 : |(1 - t) * a + t * b| ≤ |(1 - t) * a| + |t * b| := abs_add _ _
  rw [h1]
  rw [abs_mul, abs_mul, abs_of_nonneg (by linarith : (0:ℝ) ≤ 1 - t), abs_of_nonneg ht0] at h2
  have h3 : (1 - t) * |a| ≤ (1 - t) * ma := by
    apply mul_le_mul_of_nonneg_left ha; linarith
  have h4 : t * |b| ≤ t * mb := mul_le_mul_of_nonneg_left hb ht0
  linarith

lemma perlinBlend_bound {a b c d xf yf : ℝ}
    (hx0 : 0 ≤ xf) (hx1 : xf ≤ 1) (hy0 : 0 ≤ yf) (hy1 : yf ≤ 1)
    (ha : |a| ≤ xf + yf) (hb : |b| ≤ (1 - xf) + yf)
    (hc : |c| ≤ xf + (1 - yf)) (hd : |d| ≤ (1 - xf) + (1 - yf)) :
    |lerp (lerp a b (fade xf)) (lerp c d (fade xf)) (fade yf)| ≤ 1 := by
  have hu0 := fade_nonneg hx0
  have hu1 := fade_le_one hx0 hx1
  have hv0 := fade_nonneg hy0
  have hv1 := fade_le_one hy0 hy1
  have hbot := abs_lerp_le hu0 hu1 ha hb
  have htop := abs_lerp_le hu0 hu1 hc hd
  have hall := abs_lerp_le hv0 hv1 hbot htop
  have hgx := fade_corner_bound hx0 hx1
  have hgy := fade_corner_bound hy0 hy1
  nlinarith [hall, hgx, hgy]

lemma perlin2D_abs_le_one (g : NoiseGenerator) (x y : ℝ) : |g.perlin2D x y| ≤ 1 := by
  have hx0 := fract_nonneg' x
  have hx1 := le_of_lt (fract_lt_one' x)
  have hy0 := fract_nonneg' y
  have hy1 := le_of_lt (fract_lt_one' y)
  simp only [NoiseGenerator.perlin2D]
  refine perlinBlend_bound hx0 hx1 hy0 hy1 ?_ ?_ ?_ ?_
  · calc |grad2 _ (x - ⌊x⌋) (y - ⌊y⌋)| ≤ |x - ⌊x⌋| + |y - ⌊y⌋| := grad2_abs_le _ _ _
      _ = (x - ⌊x⌋) + (y - ⌊y⌋) := by rw [abs_of_nonneg hx0, abs_of_nonneg hy0]
  · calc |grad2 _ (x - ⌊x⌋ - 1) (y - ⌊y⌋)| ≤ |x - ⌊x⌋ - 1| + |y - ⌊y⌋| := grad2_abs_le _ _ _
      _ = (1 - (x - ⌊x⌋)) + (y - ⌊y⌋) := by
          rw [abs_of_nonpos (by linarith), abs_of_nonneg hy0]; ring
  · calc |grad2 _ (x - ⌊x⌋) (y - ⌊y⌋ - 1)| ≤ |x - ⌊x⌋| + |y - ⌊y⌋ - 1| := grad2_abs_le _ _ _
      _ = (x - ⌊x⌋) + (1 - (y - ⌊y⌋)) := by
          rw [abs_of_nonneg hx0, abs_of_nonpos (by linarith)]; ring
  · calc |grad2 _ (x - ⌊x⌋ - 1) (y - ⌊y⌋ - 1)|
        ≤ |x - ⌊x⌋ - 1| + |y - ⌊y⌋ - 1| := grad2_abs_le _ _ _
      _ = (1 - (x - ⌊x⌋)) + (1 - (y - ⌊y⌋)) := by
          rw [abs_of_nonpos (by linarith), abs_of_nonpos (by linarith)]; ring

lemma fbmAccum_invariant (g : NoiseGenerator) (x y p l : ℝ) (hp : 0 ≤ p) (n : ℕ) :
    0 ≤ (fbmAccum g x y p l n).2.1 ∧
    |(fbmAccum g x y p l n).1| ≤ (fbmAccum g x y p l n).2.2.2 ∧
    (1 ≤ n → 1 ≤ (fbmAccum g x y p l n).2.2.2) := by
  induction n with
  | zero => refine ⟨by norm_num [fbmAccum], by norm_num [fbmAccum], by omega⟩
  | succ m ih =>
    obtain ⟨ha, hv, hm⟩ := ih
    refine ⟨mul_nonneg ha hp, ?_, ?_⟩
    · have hper := perlin2D_abs_le_one g
        (x * (fbmAccum g x y p l m).2.2.1) (y * (fbmAccum g x y p l m).2.2.1)
      have h1 : |(fbmAccum g x y p l m).1 +
          g.perlin2D (x * (fbmAccum g x y p l m).2.2.1) (y * (fbmAccum g x y p l m).2.2.1) *
            (fbmAccum g x y p l m).2.1|
          ≤ |(fbmAccum g x y p l m).1| +
            |g.perlin2D (x * (fbmAccum g x y p l m).2.2.1) (y * (fbmAccum g x y p l m).2.2.1)| *
              (fbmAccum g x y p l m).2.1 := by
        calc _ ≤ |(fbmAccum g x y p l m).1| +
            |g.perlin2D (x * (fbmAccum g x y p l m).2.2.1) (y * (fbmAccum g x y p l m).2.2.1) *
              (fbmAccum g x y p l m).2.1| := abs_add _ _
          _ = _ := by rw [abs_mul, abs_of_nonneg ha]
      have h2 : |g.perlin2D (x * (fbmAccum g x y p l m).2.2.1) (y * (fbmAccum g x y p l m).2.2.1)| *
          (fbmAccum g x y p l m).2.1 ≤ 1 * (fbmAccum g x y p l m).2.1 :=
        mul_le_mul_of_nonneg_right hper ha
      show |(fbmAccum g x y p l m).1 + _ * _| ≤ (fbmAccum g x y p l m).2.2.2 + _
      nlinarith [h1, h2, hv]
    · intro _
      show 1 ≤ (fbmAccum g x y p l m).2.2.2 + (fbmAccum g x y p l m).2.1
      rcases Nat.eq_zero_or_pos m with rfl | hm'
      · norm_num [fbmAccum]
      · have := hm hm'
        linarith

lemma fbm2D_abs_le_one (g : NoiseGenerator) (x y p l : ℝ) (o : ℤ)
    (ho : 1 ≤ o) (hp : 0 ≤ p) : |g.fbm2D x y o p l| ≤ 1 := by
  obtain ⟨-, hv, hm⟩ := fbmAccum_invariant g x y p l hp o.toNat
  have hm1 : 1 ≤ (fbmAccum g x y p l o.toNat).2.2.2 := hm (by omega)
  unfold NoiseGenerator.fbm2D fbmValue fbmMaxValue
  rw [abs_div, div_le_one (by rw [abs_of_nonneg (by linarith)]; linarith)]
  rw [abs_of_nonneg (by linarith : (0:ℝ) ≤ (fbmAccum g x y p l o.toNat).2.2.2)]
  exact hv

lemma perlinIndices_bounded (g : NoiseGenerator) (hbound : ∀ v ∈ g.perm, v ≤ 255)
    (x y z : ℝ) :
    (∀ i ∈ perlin2DIndices g x y, i ≤ 511) ∧
    (∀ i ∈ perlin3DIndices g x y z, i ≤ 511) := by
  have hp := p_le_255 hbound
  have hX := floorMask_le_255 x
  have hY := floorMask_le_255 y
  have hZ := floorMask_le_255 z
  constructor
  · simp only [perlin2DIndices, List.mem_cons, List.not_mem_nil, or_false]
    have h1 := hp (((⌊x⌋ : ℤ) % 256).toNat)
    have h2 := hp (((⌊x⌋ : ℤ) % 256).toNat + 1)
    have h3 := hp (g.p (((⌊x⌋ : ℤ) % 256).toNat) + ((⌊y⌋ : ℤ) % 256).toNat)
    have h4 := hp (g.p (((⌊x⌋ : ℤ) % 256).toNat) + ((⌊y⌋ : ℤ) % 256).toNat + 1)
    have h5 := hp (g.p (((⌊x⌋ : ℤ) % 256).toNat + 1) + ((⌊y⌋ : ℤ) % 256).toNat)
    have h6 := hp (g.p (((⌊x⌋ : ℤ) % 256).toNat + 1) + ((⌊y⌋ : ℤ) % 256).toNat + 1)
    rintro i (rfl | rfl | rfl | rfl | rfl | rfl | rfl | rfl | rfl | rfl) <;> omega
  · simp only [perlin3DIndices, List.mem_cons, List.not_mem_nil, or_false]
    have h1 := hp (((⌊x⌋ : ℤ) % 256).toNat)
    have h2 := hp (((⌊x⌋ : ℤ) % 256).toNat + 1)
    have h3 := hp (g.p (((⌊x⌋ : ℤ) % 256).toNat) + ((⌊y⌋ : ℤ) % 256).toNat)
    have h4 := hp (g.p (((⌊x⌋ : ℤ) % 256).toNat) + ((⌊y⌋ : ℤ) % 256).toNat + 1)
    have h5 := hp (g.p (((⌊x⌋ : ℤ) % 256).toNat + 1) + ((⌊y⌋ : ℤ) % 256).toNat)
    have h6 := hp (g.p (((⌊x⌋ : ℤ) % 256).toNat + 1) + ((⌊y⌋ : ℤ) % 256).toNat + 1)
    rintro i (rfl | rfl | rfl | rfl | rfl | rfl | rfl | rfl | rfl | rfl | rfl | rfl | rfl | rfl) <;>
      omega

lemma chunkAux_length {α : Type} (f : ℕ → List α) (k : ℕ) (hk : ∀ j, (f j).length = k) :
    ∀ (n x0 : ℕ), (chunkAux f x0 n).length = n * k := by
  intro n
  induction n with
  | zero => intro x0; simp [chunkAux]
  | succ m ih =>
    intro x0
    show (f x0 ++ chunkAux f (x0 + 1) m).length = (m + 1) * k
    rw [List.length_append, hk, ih]
    ring

lemma chunkAux_drop {α : Type} (f : ℕ → List α) (k : ℕ) (hk : ∀ j, (f j).length = k) :
    ∀ (i n x0 : ℕ) (tail : List α), i < n →
      (chunkAux f x0 n ++ tail).drop (k * i)
        = f (x0 + i) ++ (chunkAux f (x0 + i + 1) (n - i - 1) ++ tail) := by
  intro i
  induction i with
  | zero =>
    intro n x0 tail hn
    match n, hn with
    | m + 1, _ =>
      show ((f x0 ++ chunkAux f (x0 + 1) m) ++ tail).drop (k * 0) = _
      rw [Nat.mul_zero, List.drop_zero, List.append_assoc]
      simp
  | succ j ih =>
    intro n x0 tail hn
    match n, hn with
    | m + 1, _ =>
      have hj : j < m := by omega
      have hdk : ∀ R : List α, (f x0 ++ R).drop k = R := by
        intro R
        rw [← hk x0]
        exact List.drop_left _ _
      have step : ((f x0 ++ chunkAux f (x0 + 1) m) ++ tail).drop (k * (j + 1))
          = (chunkAux f (x0 + 1) m ++ tail).drop (k * j) := by
        rw [List.append_assoc, show k * (j + 1) = k + k * j by ring, ← List.drop_drop, hdk]
      show ((f x0 ++ chunkAux f (x0 + 1) m) ++ tail).drop (k * (j + 1)) = _
      rw [step, ih m (x0 + 1) tail hj]
      have h1 : x0 + 1 + j = x0 + (j + 1) := by omega
      have h2 : m - j - 1 = m + 1 - (j + 1) - 1 := by omega
      rw [h1, h2]

lemma chunkAux_drop_nil {α : Type} (f : ℕ → List α) (k : ℕ) (hk : ∀ j, (f j).length = k)
    (i n x0 : ℕ) (hn : i < n) :
    (chunkAux f x0 n).drop (k * i)
      = f (x0 + i) ++ chunkAux f (x0 + i + 1) (n - i - 1) := by
  have h := chunkAux_drop f k hk i n x0 [] hn
  rwa [List.append_nil, List.append_nil] at h

lemma chunkAux_singleton_drop {α : Type} (f : ℕ → α) (i n x0 : ℕ) (tail : List α)
    (hn : i < n) :
    (chunkAux (fun j => [f j]) x0 n ++ tail).drop i
      = f (x0 + i) :: (chunkAux (fun j => [f j]) (x0 + i + 1) (n - i - 1) ++ tail) := by
  have h := chunkAux_drop (fun j => [f j]) 1 (fun _ => rfl) i n x0 tail hn
  rw [one_mul, List.singleton_append] at h
  exact h

lemma getElem?_eq_head?_drop {α : Type} (l : List α) (i : ℕ) : l[i]? = (l.drop i).head? := by
  induction l generalizing i with
  | nil => simp
  | cons a tl ih =>
    cases i with
    | zero => simp
    | succ j =>
      rw [List.getElem?_cons_succ, List.drop_succ_cons]
      exact ih j

lemma gridVertices_rowlength (g : NoiseGenerator) (width depth : ℝ) (ws ds : ℕ)
    (center : Vec3) (heightScale noiseScale : ℝ) :
    ∀ z, (chunkAux (fun x =>
      [gridVertex g width depth ws ds center heightScale noiseScale z x]) 0 (ws + 1)).length
      = ws + 1 := by
  intro z
  rw [chunkAux_length (fun x =>
    [gridVertex g width depth ws ds center heightScale noiseScale z x]) 1 (fun _ => rfl)
    (ws + 1) 0]
  ring

lemma gridVertices_length (g : NoiseGenerator) (width depth : ℝ) (ws ds : ℕ)
    (center : Vec3) (heightScale noiseScale : ℝ) :
    (gridVertices g width depth ws ds center heightScale noiseScale).length
      = (ws + 1) * (ds + 1) := by
  unfold gridVertices
  rw [chunkAux_length _ (ws + 1)
    (gridVertices_rowlength g width depth ws ds center heightScale noiseScale) (ds + 1) 0]
  ring

lemma gridIndices_rowlength (ws : ℕ) (vcx : ℕ) :
    ∀ z, (chunkAux (fun x => cellIndices vcx z x) 0 ws).length = ws * 6 :=
  fun z => chunkAux_length (fun x => cellIndices vcx z x) 6 (fun _ => rfl) ws 0

lemma gridIndices_length (ws ds : ℕ) : (gridIndices ws ds).length = ws * ds * 6 := by
  unfold gridIndices
  rw [chunkAux_length _ (ws * 6) (gridIndices_rowlength ws ((ws + 1) % u32)) ds 0]
  ring

lemma cellIndices_unwrapped (vcx z x : ℕ) (h : (z + 1) * vcx + x + 1 < u32) :
    cellIndices vcx z x
      = [z * vcx + x, (z + 1) * vcx + x, z * vcx + x + 1,
         z * vcx + x + 1, (z + 1) * vcx + x, (z + 1) * vcx + x + 1] := by
  have hm : (z + 1) * vcx = z * vcx + vcx := by ring
  unfold cellIndices
  rw [Nat.mod_eq_of_lt (show z * vcx + x < u32 by omega),
    Nat.mod_eq_of_lt (show (z + 1) * vcx + x < u32 by omega),
    Nat.mod_eq_of_lt (show z * vcx + x + 1 < u32 by omega),
    Nat.mod_eq_of_lt (show (z + 1) * vcx + x + 1 < u32 by omega)]

lemma runFrames_disabled (errs : List Bool) : ∀ s : RendererState,
    s.postProcessingEnabled = false →
    runFrames s errs = (s, errs.map fun _ => (RenderPath.direct, ([] : List String))) := by
  induction errs with
  | nil => intro s _; rfl
  | cons e rest ih =>
    intro s h
    have hr : renderFrame s e = (s, RenderPath.direct, []) := by
      unfold renderFrame
      rw [if_neg]
      intro hc
      rw [h] at hc
      exact Bool.false_ne_true hc.2
    show ((runFrames (renderFrame s e).1 rest).1,
      (renderFrame s e).2 :: (runFrames (renderFrame s e).1 rest).2) = _
    rw [hr]
    simp [ih s h]

lemma runFrames_log_count (errs : List Bool) : ∀ s : RendererState,
    ((runFrames s errs).2.countP fun o => !o.2.isEmpty) ≤ 1 := by
  induction errs with
  | nil => intro s; simp [runFrames]
  | cons e rest ih =>
    intro s
    show (((renderFrame s e).2 :: (runFrames (renderFrame s e).1 rest).2).countP
      fun o => !o.2.isEmpty) ≤ 1
    rw [List.countP_cons]
    by_cases hc : s.hasPostProcessor = true ∧ s.postProcessingEnabled = true
    · cases e with
      | true =>
        have hr : renderFrame s true
            = ({ s with postProcessingEnabled := false }, RenderPath.direct, postErrorLog) := by
          unfold renderFrame
          rw [if_pos hc, if_pos rfl]
        rw [hr, runFrames_disabled rest _ rfl]
        simp [postErrorLog]
      | false =>
        have hr : renderFrame s false = (s, RenderPath.postProcessed, []) := by
          unfold renderFrame
          rw [if_pos hc, if_neg (by simp)]
        rw [hr]
        simpa using ih s
    · have hr : renderFrame s e = (s, RenderPath.direct, []) := by
        unfold renderFrame
        rw [if_neg hc]
      rw [hr]
      simpa using ih s


/-! ## Claim theorems: noise (C1, C2, C9, C10) -/

/-- C1: for any fixed non-zero seed, two independently constructed
generators (possibly observing different clock values) have identical
permutation tables, so `perlin2D`, `perlin3D`, `fbm2D` and
`generateTerrainHeight` agree on all inputs: the output depends on the seed
and the coordinates only.  The query methods are `const` in the source and
are modelled as pure functions of the constructed state, so no query
mutates state. -/
theorem C1_noise_determinism (seed : ℕ) (hseed : seed ≠ 0) (t1 t2 : ℕ)
    (x y z scale heightScale persistence lacunarity : ℝ) (octaves : ℤ) :
    mkNoiseGenerator seed t1 = mkNoiseGenerator seed t2 ∧
    (mkNoiseGenerator seed t1).perlin2D x y = (mkNoiseGenerator seed t2).perlin2D x y ∧
    (mkNoiseGenerator seed t1).perlin3D x y z = (mkNoiseGenerator seed t2).perlin3D x y z ∧
    (mkNoiseGenerator seed t1).fbm2D x y octaves persistence lacunarity
      = (mkNoiseGenerator seed t2).fbm2D x y octaves persistence lacunarity ∧
    (mkNoiseGenerator seed t1).generateTerrainHeight x z scale heightScale
      = (mkNoiseGenerator seed t2).generateTerrainHeight x z scale heightScale := by
  have h : mkNoiseGenerator seed t1 = mkNoiseGenerator seed t2 := by
    unfold mkNoiseGenerator
    rw [if_neg hseed, if_neg hseed]
  exact ⟨h, by rw [h], by rw [h], by rw [h], by rw [h]⟩

/-- Witness for C1 at seed 5 with two different clock observations. -/
theorem C1_noise_determinism_witness :
    mkNoiseGenerator 5 0 = mkNoiseGenerator 5 999 ∧
    (mkNoiseGenerator 5 0).perlin2D 1.25 (-2.5) = (mkNoiseGenerator 5 999).perlin2D 1.25 (-2.5) ∧
    (mkNoiseGenerator 5 0).perlin3D 1.25 (-2.5) 3 = (mkNoiseGenerator 5 999).perlin3D 1.25 (-2.5) 3 ∧
    (mkNoiseGenerator 5 0).fbm2D 1.25 (-2.5) 6 0.5 2 = (mkNoiseGenerator 5 999).fbm2D 1.25 (-2.5) 6 0.5 2 ∧
    (mkNoiseGenerator 5 0).generateTerrainHeight 1.25 3 0.01 10
      = (mkNoiseGenerator 5 999).generateTerrainHeight 1.25 3 0.01 10 :=
  C1_noise_determinism 5 (by decide) 0 999 1.25 (-2.5) 3 0.01 10 0.5 2 6

/-- C2: for positive `scale` and `heightScale`, `generateTerrainHeight`
stays in `[0, heightScale]`: the base, ridge and detail layers are all
bounded through the fBm normalization, so the weighted sum lies in
`[-0.8, 1]` and the `[-1,1] → [0,1]` remap times `heightScale` stays in
range. -/
theorem C2_generateTerrainHeight_range (g : NoiseGenerator) (x z scale heightScale : ℝ)
    (_hscale : 0 < scale) (hhs : 0 < heightScale) :
    0 ≤ g.generateTerrainHeight x z scale heightScale ∧
    g.generateTerrainHeight x z scale heightScale ≤ heightScale := by
  have hbase := fbm2D_abs_le_one g (x * scale) (z * scale) 0.5 2.0 6 (by norm_num) (by norm_num)
  have hridge := fbm2D_abs_le_one g (x * scale * 0.5) (z * scale * 0.5) 0.6 2.1 4
    (by norm_num) (by norm_num)
  have hdet := fbm2D_abs_le_one g (x * scale * 4.0) (z * scale * 4.0) 0.3 2.0 3
    (by norm_num) (by norm_num)
  obtain ⟨hb1, hb2⟩ := abs_le.mp hbase
  obtain ⟨hd1, hd2⟩ := abs_le.mp hdet
  have hr0 : (0:ℝ) ≤ |g.fbm2D (x * scale * 0.5) (z * scale * 0.5) 4 0.6 2.1| := abs_nonneg _
  have hr1 : |g.fbm2D (x * scale * 0.5) (z * scale * 0.5) 4 0.6 2.1| ≤ 1 := hridge
  simp only [NoiseGenerator.generateTerrainHeight]
  constructor
  · have : (0:ℝ) ≤ (g.fbm2D (x * scale) (z * scale) 6 0.5 2.0 * 0.7 +
        (1 - |g.fbm2D (x * scale * 0.5) (z * scale * 0.5) 4 0.6 2.1|) *
          (1 - |g.fbm2D (x * scale * 0.5) (z * scale * 0.5) 4 0.6 2.1|) * 0.2 +
        g.fbm2D (x * scale * 4.0) (z * scale * 4.0) 3 0.3 2.0 * 0.1) * 0.5 + 0.5 := by
      nlinarith [sq_nonneg (1 - |g.fbm2D (x * scale * 0.5) (z * scale * 0.5) 4 0.6 2.1|)]
    exact mul_nonneg this (le_of_lt hhs)
  · have hle1 : (g.fbm2D (x * scale) (z * scale) 6 0.5 2.0 * 0.7 +
        (1 - |g.fbm2D (x * scale * 0.5) (z * scale * 0.5) 4 0.6 2.1|) *
          (1 - |g.fbm2D (x * scale * 0.5) (z * scale * 0.5) 4 0.6 2.1|) * 0.2 +
        g.fbm2D (x * scale * 4.0) (z * scale * 4.0) 3 0.3 2.0 * 0.1) * 0.5 + 0.5 ≤ 1 := by
      nlinarith [hr0, hr1]
    calc _ ≤ 1 * heightScale := mul_le_mul_of_nonneg_right hle1 (le_of_lt hhs)
      _ = heightScale := one_mul _

/-- Witness for C2 at a concrete generator and parameters. -/
theorem C2_generateTerrainHeight_range_witness :
    0 ≤ (mkNoiseGenerator 42 0).generateTerrainHeight 3 7 1 1 ∧
    (mkNoiseGenerator 42 0).generateTerrainHeight 3 7 1 1 ≤ 1 :=
  C2_generateTerrainHeight_range (mkNoiseGenerator 42 0) 3 7 1 1 (by norm_num) (by norm_num)

/-- C9: for any seed and any real inputs, the permutation table has 512
entries all in `[0,255]`, and every table read performed by `perlin2D` and
`perlin3D` uses an index at most 511 (the `&255` masks cap the cell
coordinates at 255 and a table entry plus a masked coordinate plus one is
at most 511), so no lookup leaves the table. -/
theorem C9_perm_lookups_in_bounds (seed timeSeed : ℕ) (x y z : ℝ) :
    (mkNoiseGenerator seed timeSeed).perm.length = 512 ∧
    (∀ v ∈ (mkNoiseGenerator seed timeSeed).perm, v ≤ 255) ∧
    (∀ i ∈ perlin2DIndices (mkNoiseGenerator seed timeSeed) x y, i ≤ 511) ∧
    (∀ i ∈ perlin3DIndices (mkNoiseGenerator seed timeSeed) x y z, i ≤ 511) := by
  obtain ⟨h2, h3⟩ := perlinIndices_bounded (mkNoiseGenerator seed timeSeed)
    (permTable_bound _) x y z
  exact ⟨permTable_length _, permTable_bound _, h2, h3⟩

/-- C10: the divisor of `fbm2D` is the accumulated amplitude: it is at
least 1 whenever the loop runs at least once with non-negative persistence
(in particular for the 6/4/3-octave calls of `generateTerrainHeight`), but
for `octaves ≤ 0` the loop body never runs and both the accumulated value
and the divisor are 0, so the C++ float division is `0.0f/0.0f` (NaN) and
the `[-1,1]` guarantee needs `octaves ≥ 1`. -/
theorem C10_fbm_divisor (g : NoiseGenerator) (x y persistence lacunarity : ℝ) (octaves : ℤ) :
    (octaves ≤ 0 →
      fbmValue g x y octaves persistence lacunarity = 0 ∧
      fbmMaxValue g x y octaves persistence lacunarity = 0) ∧
    (1 ≤ octaves → 0 ≤ persistence →
      1 ≤ fbmMaxValue g x y octaves persistence lacunarity) := by
  constructor
  · intro h
    have hz : octaves.toNat = 0 := by omega
    unfold fbmValue fbmMaxValue
    rw [hz]
    exact ⟨rfl, rfl⟩
  · intro ho hp
    obtain ⟨-, -, hm⟩ := fbmAccum_invariant g x y persistence lacunarity hp octaves.toNat
    exact hm (by omega)

/-- Witness for C10: at 6 octaves with persistence 0.5 the divisor is at
least 1; at -3 octaves the numerator and divisor are both 0. -/
theorem C10_fbm_divisor_witness :
    (fbmValue (mkNoiseGenerator 42 0) 1 2 (-3) 0.5 2 = 0 ∧
     fbmMaxValue (mkNoiseGenerator 42 0) 1 2 (-3) 0.5 2 = 0) ∧
    1 ≤ fbmMaxValue (mkNoiseGenerator 42 0) 1 2 6 0.5 2 :=
  ⟨(C10_fbm_divisor (mkNoiseGenerator 42 0) 1 2 0.5 2 (-3)).1 (by norm_num),
   (C10_fbm_divisor (mkNoiseGenerator 42 0) 1 2 0.5 2 6).2 (by norm_num) (by norm_num)⟩

/-! ## Claim theorems: lighting (C5, C6, C7) -/

/-- C5 counterexample: from time 0 with increment `2.5 * 1` (animation
enabled), the code leaves `timeOfDay = 1.5`, which is neither
`(0 + 2.5) mod 1` nor inside `[0, 1)`: the single `-= 1` is not a full
`mod 1.0`. -/
theorem C5_counterexample :
    (wrapDemoConfig.updateTimeOfDay 2.5).timeOfDay.timeOfDay = 1.5 ∧
    (wrapDemoConfig.updateTimeOfDay 2.5).timeOfDay.timeOfDay ≠
      Int.fract (wrapDemoConfig.timeOfDay.timeOfDay +
        2.5 * wrapDemoConfig.timeOfDay.daySpeed) ∧
    ¬ (wrapDemoConfig.updateTimeOfDay 2.5).timeOfDay.timeOfDay < 1 := by
  have h : (wrapDemoConfig.updateTimeOfDay 2.5).timeOfDay.timeOfDay = 1.5 := by
    norm_num [LightingConfig.updateTimeOfDay, wrapDemoConfig, fieldDefaultsConfig]
  refine ⟨h, ?_, by rw [h]; norm_num⟩
  rw [h]
  intro hfr
  have hlt := Int.fract_lt_one (wrapDemoConfig.timeOfDay.timeOfDay +
    2.5 * wrapDemoConfig.timeOfDay.daySpeed)
  rw [← hfr] at hlt
  norm_num at hlt

/-- C5 (amended): `updateTimeOfDay` is a no-op with animation disabled;
with animation enabled it adds `deltaTime * daySpeed` and subtracts 1 once
when the sum reaches 1, so whenever the start lies in `[0,1)`, the
increment is non-negative and the sum stays below 2, the result equals
`(timeOfDay + deltaTime*daySpeed) mod 1` and lies in `[0,1)` (covering the
spec's `0.98 + 0.1 ↦ 0.08` example); sums of 2 or more exceed the single
subtraction. -/
theorem C5_timeOfDay_update (cfg : LightingConfig) (deltaTime : ℝ)
    (hanim : cfg.timeOfDay.animateTimeOfDay = true)
    (h0 : 0 ≤ cfg.timeOfDay.timeOfDay) (_h1 : cfg.timeOfDay.timeOfDay < 1)
    (hinc : 0 ≤ deltaTime * cfg.timeOfDay.daySpeed)
    (h2 : cfg.timeOfDay.timeOfDay + deltaTime * cfg.timeOfDay.daySpeed < 2) :
    (cfg.updateTimeOfDay deltaTime).timeOfDay.timeOfDay
      = Int.fract (cfg.timeOfDay.timeOfDay + deltaTime * cfg.timeOfDay.daySpeed) ∧
    0 ≤ (cfg.updateTimeOfDay deltaTime).timeOfDay.timeOfDay ∧
    (cfg.updateTimeOfDay deltaTime).timeOfDay.timeOfDay < 1 ∧
    (∀ (cfg2 : LightingConfig) (dt2 : ℝ), cfg2.timeOfDay.animateTimeOfDay = false →
      cfg2.updateTimeOfDay dt2 = cfg2) := by
  have hnoop : ∀ (cfg2 : LightingConfig) (dt2 : ℝ), cfg2.timeOfDay.animateTimeOfDay = false →
      cfg2.updateTimeOfDay dt2 = cfg2 := by
    intro cfg2 dt2 hfalse
    simp [LightingConfig.updateTimeOfDay, hfalse]
  have hval : (cfg.updateTimeOfDay deltaTime).timeOfDay.timeOfDay
      = if 1 ≤ cfg.timeOfDay.timeOfDay + deltaTime * cfg.timeOfDay.daySpeed
        then cfg.timeOfDay.timeOfDay + deltaTime * cfg.timeOfDay.daySpeed - 1
        else cfg.timeOfDay.timeOfDay + deltaTime * cfg.timeOfDay.daySpeed := by
    simp [LightingConfig.updateTimeOfDay, hanim]
  by_cases hc : 1 ≤ cfg.timeOfDay.timeOfDay + deltaTime * cfg.timeOfDay.daySpeed
  · have hfl : ⌊cfg.timeOfDay.timeOfDay + deltaTime * cfg.timeOfDay.daySpeed⌋ = 1 := by
      rw [Int.floor_eq_iff]
      constructor
      · push_cast; linarith
      · push_cast; linarith
    have hfr : Int.fract (cfg.timeOfDay.timeOfDay + deltaTime * cfg.timeOfDay.daySpeed)
        = cfg.timeOfDay.timeOfDay + deltaTime * cfg.timeOfDay.daySpeed - 1 := by
      rw [Int.fract, hfl]
      norm_num
    rw [hval, if_pos hc, hfr]
    exact ⟨rfl, by linarith, by linarith, hnoop⟩
  · push_neg at hc
    have hfr : Int.fract (cfg.timeOfDay.timeOfDay + deltaTime * cfg.timeOfDay.daySpeed)
        = cfg.timeOfDay.timeOfDay + deltaTime * cfg.timeOfDay.daySpeed :=
      Int.fract_eq_self.mpr ⟨by linarith, hc⟩
    rw [hval, if_neg (not_le.mpr hc), hfr]
    exact ⟨rfl, by linarith, hc, hnoop⟩

/-- Witness for C5 at the spec's example state: time 0.98, speed 0.1,
delta 1. -/
theorem C5_timeOfDay_update_witness :
    (specExampleConfig.updateTimeOfDay 1).timeOfDay.timeOfDay
      = Int.fract (specExampleConfig.timeOfDay.timeOfDay +
          1 * specExampleConfig.timeOfDay.daySpeed) ∧
    0 ≤ (specExampleConfig.updateTimeOfDay 1).timeOfDay.timeOfDay ∧
    (specExampleConfig.updateTimeOfDay 1).timeOfDay.timeOfDay < 1 ∧
    (∀ (cfg2 : LightingConfig) (dt2 : ℝ), cfg2.timeOfDay.animateTimeOfDay = false →
      cfg2.updateTimeOfDay dt2 = cfg2) :=
  C5_timeOfDay_update specExampleConfig 1
    (by norm_num [specExampleConfig, fieldDefaultsConfig])
    (by norm_num [specExampleConfig, fieldDefaultsConfig])
    (by norm_num [specExampleConfig, fieldDefaultsConfig])
    (by norm_num [specExampleConfig, fieldDefaultsConfig])
    (by norm_num [specExampleConfig, fieldDefaultsConfig])

/-- C6 counterexample: one animated update landing on `timeOfDay = 0.5`
sets the fog to the fixed day color `(0.7, 0.8, 0.9)`, which differs from
the night/sunset triangular-ramp blend the claim prescribes (that blend
equals the night fog `(0.4, 0.4, 0.6)` at 0.5). -/
theorem C6_counterexample :
    (fogDemoConfig.updateTimeOfDay 0.1).timeOfDay.timeOfDay = 0.5 ∧
    (fogDemoConfig.updateTimeOfDay 0.1).atmosphere.fogColor
      ≠ specFogBlend ((fogDemoConfig.updateTimeOfDay 0.1).timeOfDay.timeOfDay) := by
  have ht : (fogDemoConfig.updateTimeOfDay 0.1).timeOfDay.timeOfDay = 0.5 := by
    norm_num [LightingConfig.updateTimeOfDay, fogDemoConfig, fieldDefaultsConfig]
  have hf : (fogDemoConfig.updateTimeOfDay 0.1).atmosphere.fogColor = dayFog := by
    norm_num [LightingConfig.updateTimeOfDay, fogDemoConfig, fieldDefaultsConfig, fogColorOf]
  refine ⟨ht, ?_⟩
  rw [hf, ht]
  intro hcontra
  have hx := congrArg Prod.fst hcontra
  norm_num [dayFog, specFogBlend, nightFog, sunsetFog, vadd, vsmul, vsub, clampR] at hx

/-- C6 (amended): an animated update sets the fog to `fogColorOf` of the
new time; that function equals the spec's triangular-ramp night/sunset
blend only in the dawn/dusk/night bands (`t < 0.3` or `t > 0.7`) and is
the fixed day color on `[0.3, 0.7]`; it is continuous on each band but
discontinuous at the band edge 0.3 (and, symmetrically, 0.7), jumping from
the night fog to the day color. -/
theorem C6_fog_bands (cfg : LightingConfig) (deltaTime t : ℝ)
    (hanim : cfg.timeOfDay.animateTimeOfDay = true) :
    (cfg.updateTimeOfDay deltaTime).atmosphere.fogColor
      = fogColorOf ((cfg.updateTimeOfDay deltaTime).timeOfDay.timeOfDay) ∧
    ((t < 0.3 ∨ 0.7 < t) → fogColorOf t = specFogBlend t) ∧
    (0.3 ≤ t → t ≤ 0.7 → fogColorOf t = dayFog) ∧
    ContinuousOn fogColorOf (Set.Iio (0.3 : ℝ)) ∧
    ContinuousOn fogColorOf (Set.Icc (0.3 : ℝ) 0.7) ∧
    ContinuousOn fogColorOf (Set.Ioi (0.7 : ℝ)) ∧
    ¬ ContinuousAt fogColorOf 0.3 := by
  have hupd : (cfg.updateTimeOfDay deltaTime).atmosphere.fogColor
      = fogColorOf ((cfg.updateTimeOfDay deltaTime).timeOfDay.timeOfDay) := by
    simp [LightingConfig.updateTimeOfDay, hanim]
  have hband1 : ∀ s : ℝ, (s < 0.3 ∨ 0.7 < s) → fogColorOf s = specFogBlend s := by
    intro s hs
    rw [fogColorOf, if_pos hs, specFogBlend]
  have hband2 : ∀ s : ℝ, 0.3 ≤ s → s ≤ 0.7 → fogColorOf s = dayFog := by
    intro s hs1 hs2
    rw [fogColorOf, if_neg]
    push_neg
    exact ⟨hs1, hs2⟩
  have hclamp : Continuous fun s : ℝ => clampR (|s - 0.5| * 4 - 1) 0 1 := by
    unfold clampR
    exact ((((continuous_id.sub continuous_const).abs.mul continuous_const).sub
      continuous_const).max continuous_const).min continuous_const
  have hblend : Continuous specFogBlend := by
    unfold specFogBlend vadd vsmul vsub nightFog sunsetFog
    refine Continuous.prod_mk ?_ (Continuous.prod_mk ?_ ?_)
    · exact continuous_const.add (hclamp.mul continuous_const)
    · exact continuous_const.add (hclamp.mul continuous_const)
    · exact continuous_const.add (hclamp.mul continuous_const)
  refine ⟨hupd, hband1 t, hband2 t, ?_, ?_, ?_, ?_⟩
  · exact hblend.continuousOn.congr fun s hs => hband1 s (Or.inl hs)
  · exact continuousOn_const.congr fun s hs => hband2 s hs.1 hs.2
  · exact hblend.continuousOn.congr fun s hs => hband1 s (Or.inr hs)
  · intro hcont
    have h1 : ContinuousAt (Prod.fst ∘ fogColorOf) 0.3 :=
      continuous_fst.continuousAt.comp hcont
    have hle : Filter.Tendsto (Prod.fst ∘ fogColorOf)
        (nhdsWithin (0.3 : ℝ) (Set.Iio 0.3)) (nhds ((fogColorOf 0.3).1)) :=
      h1.tendsto.mono_left nhdsWithin_le_nhds
    have hev : (Prod.fst ∘ fogColorOf)
        =ᶠ[nhdsWithin (0.3 : ℝ) (Set.Iio 0.3)] fun _ => (0.4 : ℝ) := by
      filter_upwards [Ioo_mem_nhdsWithin_Iio
        (show (0.3 : ℝ) ∈ Set.Ioc 0.25 0.3 by constructor <;> norm_num)] with s hs
      obtain ⟨hs1, hs2⟩ := hs
      have habs : |s - 0.5| = 0.5 - s := by
        rw [abs_of_nonpos (by linarith)]; ring
      have hcl0 : clampR (|s - 0.5| * 4 - 1) 0 1 = 0 := by
        rw [habs]
        unfold clampR
        rw [max_eq_right (by linarith), min_eq_left (by norm_num)]
      show (fogColorOf s).1 = 0.4
      rw [fogColorOf, if_pos (Or.inl hs2), hcl0]
      norm_num [vadd, vsmul, vsub, nightFog, sunsetFog]
    have hlim : Filter.Tendsto (Prod.fst ∘ fogColorOf)
        (nhdsWithin (0.3 : ℝ) (Set.Iio 0.3)) (nhds (0.4 : ℝ)) :=
      (Filter.tendsto_congr' hev).mpr tendsto_const_nhds
    have hval : (fogColorOf (0.3 : ℝ)).1 = 0.7 := by
      rw [hband2 0.3 (by norm_num) (by norm_num)]
      norm_num [dayFog]
    rw [hval] at hle
    have : (0.4 : ℝ) = 0.7 := tendsto_nhds_unique hlim hle
    norm_num at this

/-- Witness for C6's amended theorem at a concrete animated state. -/
theorem C6_fog_bands_witness :
    (fogDemoConfig.updateTimeOfDay 0.1).atmosphere.fogColor
      = fogColorOf ((fogDemoConfig.updateTimeOfDay 0.1).timeOfDay.timeOfDay) ∧
    (((0.1 : ℝ) < 0.3 ∨ (0.7 : ℝ) < 0.1) → fogColorOf 0.1 = specFogBlend 0.1) ∧
    ((0.3 : ℝ) ≤ 0.1 → (0.1 : ℝ) ≤ 0.7 → fogColorOf 0.1 = dayFog) ∧
    ContinuousOn fogColorOf (Set.Iio (0.3 : ℝ)) ∧
    ContinuousOn fogColorOf (Set.Icc (0.3 : ℝ) 0.7) ∧
    ContinuousOn fogColorOf (Set.Ioi (0.7 : ℝ)) ∧
    ¬ ContinuousAt fogColorOf 0.3 :=
  C6_fog_bands fogDemoConfig 0.1 0.1
    (by norm_num [fogDemoConfig, fieldDefaultsConfig])

/-- C7: `addPointLight` appends below the 8-light cap and otherwise
returns the state unchanged together with the logged warning; every
sequence of adds, clears and preset applications preserves the invariant
that at most 8 point lights are held. -/
theorem C7_point_light_cap (cfg : LightingConfig) (l : PointLight) :
    (cfg.pointLights.length < 8 →
      cfg.addPointLight l = ({ cfg with pointLights := cfg.pointLights ++ [l] }, [])) ∧
    (8 ≤ cfg.pointLights.length →
      cfg.addPointLight l = (cfg, [maxPointLightsMsg])) ∧
    (∀ ops : List LightingOp, cfg.pointLights.length ≤ 8 →
      (applyLightingOps cfg ops).pointLights.length ≤ 8) := by
  refine ⟨?_, ?_, ?_⟩
  · intro h
    simp [LightingConfig.addPointLight, h]
  · intro h
    simp [LightingConfig.addPointLight, Nat.not_lt.mpr h]
  · intro ops
    induction ops generalizing cfg with
    | nil => intro h; exact h
    | cons op rest ih =>
      intro h
      show (applyLightingOps (applyLightingOp cfg op) rest).pointLights.length ≤ 8
      refine ih _ ?_
      cases op with
      | add l' =>
        show ((cfg.addPointLight l').1).pointLights.length ≤ 8
        unfold LightingConfig.addPointLight
        split
        · simpa using by omega
        · simpa using h
      | clear => simp [applyLightingOp, LightingConfig.clearPointLights]
      | presetDefault =>
        simp [applyLightingOp, LightingConfig.setupDefaultLights, LightingConfig.addPointLight]
      | presetSunset =>
        simp [applyLightingOp, LightingConfig.setupSunsetLighting, LightingConfig.addPointLight]
      | presetNight =>
        simp [applyLightingOp, LightingConfig.setupNightLighting, LightingConfig.addPointLight]

/-! ## Claim theorems: terrain mesh (C4) -/

/-- C4 counterexample: 26755×26755 segments with positive dimensions
satisfy every precondition of the claim, and the true index count
26755·26755·6 = 4294980150 exceeds 2^32, so the 32-bit `totalIndices`
wraps to 12854; the count check then fails and the builder returns
failure, not the claimed success. -/
theorem C4_counterexample :
    generateDisplacedPlaneMesh 80 80 26755 26755 (0, 0, 0) 15 0.08 42 0 = none ∧
    (1 : ℕ) ≤ 26755 ∧ (0 : ℝ) < 80 := by
  refine ⟨?_, by norm_num, by norm_num⟩
  have hv : ¬ ((gridVertices (mkNoiseGenerator 42 0) 80 80 26755 26755 (0, 0, 0) 15
      0.08).length ≠ ((26755 + 1) % u32) * ((26755 + 1) % u32) % u32) := by
    rw [gridVertices_length]
    norm_num [u32]
  have hi : (gridIndices 26755 26755).length ≠ 26755 * 26755 * 2 % u32 * 3 % u32 := by
    rw [gridIndices_length]
    norm_num [u32]
  unfold generateDisplacedPlaneMesh
  rw [if_neg (by omega), if_neg (by norm_num), if_neg hv, if_pos hi]

/-- C4 (amended): with at least one segment in each direction, positive
dimensions, and analytic vertex and index counts that fit the 32-bit
unsigned counters (`(ws+1)*(ds+1) < 2^32` and `ws*ds*6 < 2^32`), the mesh
builder succeeds, yields exactly `(widthSegments+1)*(depthSegments+1)`
vertices in z-major row order (the vertex at flat position
`z*(widthSegments+1)+x` is the grid vertex of `(x, z)`) and exactly
`widthSegments*depthSegments*6` indices, the six of cell `(x, z)` being
the two claimed triangles based at `topLeft = z*(widthSegments+1)+x`; for
larger grids the wrapped 32-bit totals disagree with the true counts and
the build fails. -/
theorem C4_grid_mesh (width depth : ℝ) (ws ds : ℕ) (center : Vec3)
    (heightScale noiseScale : ℝ) (seed timeSeed : ℕ)
    (hws : 1 ≤ ws) (hds : 1 ≤ ds) (hw : 0 < width) (hd : 0 < depth)
    (hv32 : (ws + 1) * (ds + 1) < u32) (hi32 : ws * ds * 6 < u32) :
    ∃ vertices indices,
      generateDisplacedPlaneMesh width depth ws ds center heightScale noiseScale seed timeSeed
        = some (vertices, indices) ∧
      vertices.length = (ws + 1) * (ds + 1) ∧
      indices.length = ws * ds * 6 ∧
      (∀ z x, z ≤ ds → x ≤ ws →
        vertices[z * (ws + 1) + x]? = some (gridVertex (mkNoiseGenerator seed timeSeed)
          width depth ws ds center heightScale noiseScale z x)) ∧
      (∀ z x, z < ds → x < ws →
        (indices.drop (6 * (z * ws + x))).take 6
          = [z * (ws + 1) + x, (z + 1) * (ws + 1) + x, z * (ws + 1) + x + 1,
             z * (ws + 1) + x + 1, (z + 1) * (ws + 1) + x, (z + 1) * (ws + 1) + x + 1]) := by
  have hws32 : ws + 1 < u32 := by
    have h1 : (ws + 1) * 1 ≤ (ws + 1) * (ds + 1) := Nat.mul_le_mul (le_refl _) (by omega)
    omega
  have hds32 : ds + 1 < u32 := by
    have h1 : 1 * (ds + 1) ≤ (ws + 1) * (ds + 1) := Nat.mul_le_mul (by omega) (le_refl _)
    omega
  have hvcx : (ws + 1) % u32 = ws + 1 := Nat.mod_eq_of_lt hws32
  have hrowlen := gridVertices_rowlength (mkNoiseGenerator seed timeSeed) width depth ws ds
    center heightScale noiseScale
  have hvlen := gridVertices_length (mkNoiseGenerator seed timeSeed) width depth ws ds
    center heightScale noiseScale
  have hirowlen := gridIndices_rowlength ws ((ws + 1) % u32)
  have hilen := gridIndices_length ws ds
  have hirowlen6 : ∀ z,
      (chunkAux (fun x => cellIndices ((ws + 1) % u32) z x) 0 ws).length = ws * 6 := hirowlen
  refine ⟨_, _, ?_, hvlen, hilen, ?_, ?_⟩
  · have htotv : ((ws + 1) % u32) * ((ds + 1) % u32) % u32 = (ws + 1) * (ds + 1) := by
      rw [hvcx, Nat.mod_eq_of_lt hds32, Nat.mod_eq_of_lt hv32]
    have htoti : ws * ds * 2 % u32 * 3 % u32 = ws * ds * 6 := by
      rw [Nat.mod_eq_of_lt (show ws * ds * 2 < u32 by omega),
        show ws * ds * 2 * 3 = ws * ds * 6 by ring, Nat.mod_eq_of_lt hi32]
    unfold generateDisplacedPlaneMesh
    rw [if_neg (by omega), if_neg (by push_neg; exact ⟨hw, hd⟩),
      if_neg (by rw [htotv]; simp [hvlen]), if_neg (by rw [htoti]; simp [hilen])]
  · intro z x hz hx
    have hidx : z * (ws + 1) + x = (ws + 1) * z + x := by ring
    rw [getElem?_eq_head?_drop, hidx, ← List.drop_drop]
    unfold gridVertices
    rw [chunkAux_drop_nil _ (ws + 1) hrowlen z (ds + 1) 0 (by omega)]
    simp only [Nat.zero_add]
    rw [chunkAux_singleton_drop
      (fun x' => gridVertex (mkNoiseGenerator seed timeSeed) width depth ws ds center
        heightScale noiseScale z x') x (ws + 1) 0 _ (by omega)]
    simp
  · intro z x hz hx
    have hidx : 6 * (z * ws + x) = ws * 6 * z + 6 * x := by ring
    unfold gridIndices
    rw [hidx, ← List.drop_drop]
    rw [chunkAux_drop_nil _ (ws * 6) hirowlen6 z ds 0 hz]
    simp only [Nat.zero_add]
    rw [chunkAux_drop (fun x' => cellIndices ((ws + 1) % u32) z x') 6 (fun _ => rfl)
      x ws 0 _ hx]
    simp only [Nat.zero_add]
    rw [show (6 : ℕ) = (cellIndices ((ws + 1) % u32) z x).length from rfl, List.take_left]
    rw [hvcx]
    refine cellIndices_unwrapped (ws + 1) z x ?_
    have ha : (z + 1) * (ws + 1) ≤ ds * (ws + 1) := Nat.mul_le_mul (by omega) (le_refl _)
    have hb : (ws + 1) * (ds + 1) = ds * (ws + 1) + (ws + 1) := by ring
    omega

/-- Witness for C4 at the spec's example parameters: an 80×80 terrain with
100×100 segments yields 101·101 = 10201 vertices and 60000 indices. -/
theorem C4_grid_mesh_witness :
    ∃ vertices indices,
      generateDisplacedPlaneMesh 80 80 100 100 (0, 0, 0) 15 0.08 42 0
        = some (vertices, indices) ∧
      vertices.length = 10201 ∧ indices.length = 60000 := by
  obtain ⟨v, i, h1, h2, h3, -, -⟩ := C4_grid_mesh 80 80 100 100 (0, 0, 0) 15 0.08 42 0
    (by norm_num) (by norm_num) (by norm_num) (by norm_num)
    (by norm_num [u32]) (by norm_num [u32])
  exact ⟨v, i, h1, by rw [h2], by rw [h3]⟩

/-! ## Claim theorems: bloom ping-pong (C3) -/

/-- C3: the blur loop runs exactly `bloomBlurPasses` passes; at the
default `bloomBlurPasses = 5` the direction flag alternates
`true, false, true, false, true` with write targets `1, 0, 1, 0, 1`, so
the last (5th) pass writes ping-pong target 1 — but the final composite
binds ping-pong texture 0, which therefore is not the target written by
the last blur pass (the claim, the spec and the code's own comment all
expect the final blur result there). -/
theorem C3_bloom_binding_bug :
    (∀ n : ℕ, ∀ h : Bool, (blurLoop n h).length = n) ∧
    (applyBloomPasses 5).map BlurPass.horizontal = [true, false, true, false, true] ∧
    (applyBloomPasses 5).map BlurPass.writeTarget = [1, 0, 1, 0, 1] ∧
    (applyBloomPasses 5).map BlurPass.readSource = [0, 1, 0, 1, 0] ∧
    (applyBloomPasses 5).getLast?.map BlurPass.writeTarget = some 1 ∧
    (applyBloomPasses 5).getLast?.map BlurPass.writeTarget ≠ some compositeBloomSource := by
  refine ⟨?_, rfl, rfl, rfl, rfl, by decide⟩
  intro n
  induction n with
  | zero => intro h; rfl
  | succ m ih =>
    intro h
    show (blurLoop (m + 1) h).length = m + 1
    simp [blurLoop, ih]

/-! ## Claim theorems: post-processing degradation (C8) -/

/-- C8: once a frame of `render` takes the post-processed path and an
error escapes it, that frame logs the diagnostic, falls back to direct
rendering, and clears `m_postProcessingEnabled`; from then on every
subsequent frame renders via the direct path with no further output and no
retry of post-processing, and over any whole run at most one frame logs a
diagnostic. -/
theorem C8_fail_once_degrade (s : RendererState) (pre post errs : List Bool)
    (hactive : (runFrames s pre).1.hasPostProcessor = true ∧
      (runFrames s pre).1.postProcessingEnabled = true) :
    (renderFrame (runFrames s pre).1 true).1.postProcessingEnabled = false ∧
    (renderFrame (runFrames s pre).1 true).2.1 = RenderPath.direct ∧
    (renderFrame (runFrames s pre).1 true).2.2 = postErrorLog ∧
    runFrames (renderFrame (runFrames s pre).1 true).1 post
      = ((renderFrame (runFrames s pre).1 true).1,
         post.map fun _ => (RenderPath.direct, ([] : List String))) ∧
    ((runFrames s errs).2.countP fun o => !o.2.isEmpty) ≤ 1 := by
  have h1 : renderFrame (runFrames s pre).1 true
      = ({ (runFrames s pre).1 with postProcessingEnabled := false },
         RenderPath.direct, postErrorLog) := by
    unfold renderFrame
    rw [if_pos hactive, if_pos rfl]
  refine ⟨by rw [h1], by rw [h1], by rw [h1], ?_, runFrames_log_count errs s⟩
  rw [h1]
  exact runFrames_disabled post _ rfl

/-- Witness for C8: a run that renders once successfully, then hits an
error, then keeps rendering directly. -/
theorem C8_fail_once_degrade_witness :
    (renderFrame (runFrames ⟨true, true⟩ [false]).1 true).1.postProcessingEnabled = false ∧
    (renderFrame (runFrames ⟨true, true⟩ [false]).1 true).2.1 = RenderPath.direct ∧
    (renderFrame (runFrames ⟨true, true⟩ [false]).1 true).2.2 = postErrorLog ∧
    runFrames (renderFrame (runFrames ⟨true, true⟩ [false]).1 true).1 [false, true, false]
      = ((renderFrame (runFrames ⟨true, true⟩ [false]).1 true).1,
         [false, true, false].map fun _ => (RenderPath.direct, ([] : List String))) ∧
    ((runFrames ⟨true, true⟩ [false, true, true, false]).2.countP fun o => !o.2.isEmpty) ≤ 1 :=
  C8_fail_once_degrade ⟨true, true⟩ [false] [false, true, false] [false, true, true, false]
    (by constructor <;> rfl)

/-- Witness for C7: the 9th addition to a state holding 8 lights is
rejected with the warning, and the cap invariant holds after it. -/
theorem C7_point_light_cap_witness :
    fullLightsConfig.addPointLight defaultPointLight
      = (fullLightsConfig, [maxPointLightsMsg]) ∧
    (applyLightingOps fullLightsConfig [LightingOp.add defaultPointLight]).pointLights.length ≤ 8 :=
  ⟨(C7_point_light_cap fullLightsConfig defaultPointLight).2.1
      (by simp [fullLightsConfig, fieldDefaultsConfig]),
   (C7_point_light_cap fullLightsConfig defaultPointLight).2.2
      [LightingOp.add defaultPointLight]
      (by simp [fullLightsConfig, fieldDefaultsConfig])⟩

end AetherGL
